import Mathlib

/-!
Shallow embedding of the generative-AI request-translation services
(`src/copilot/src/services` and the companion service files): the base
service error handling, the asynchronous job-polling loop duplicated in
`LyriaService.pollMusicGeneration` and `VeoService.pollVideoGeneration`,
the per-service `validateRequest` / `processRequest` functions, the
`AVToolService` batch loop, and `ChirpService.splitTextIntoChunks`.

Conventions of the embedding:
* JavaScript exceptions become `Except String` results; the propagated
  value is the thrown `Error`'s `message`.
* Time is measured in milliseconds.  `Date.now() - startTime` is the
  `elapsed` counter; each status request is an event of the input trace
  carrying `dt`, the time that passed while the request was in flight.
* File-system effects (`fs.writeFile`, `fs.stat`, `generateFileName`,
  ffmpeg invocations) are oracles supplied by an environment record;
  claims never depend on the actual bytes written.
* Optional JavaScript values become `Option`; JavaScript truthiness of
  an optional number is `numTruthy` (`0`, like `undefined`, is falsy)
  and of an optional string is `strTruthy` (`""` is falsy).
-/

/-! ## JavaScript basics -/

/-- Truthiness of an optional JavaScript number: `undefined` and `0` are falsy. -/
def numTruthy : Option Int → Bool
  | none => false
  | some n => n != 0

/-- Truthiness of an optional JavaScript string: `undefined` and `""` are falsy. -/
def strTruthy : Option String → Bool
  | none => false
  | some s => s != ""

/-- JavaScript `a || b` on an optional string `a` (falsy when absent or empty). -/
def jsOr (a : Option String) (b : String) : String :=
  match a with
  | none => b
  | some s => if s = "" then b else s

/-- A JavaScript error as classified by `BaseGoogleAIService.handleError`:
an axios error with an HTTP response, an axios error with a request but no
response (network-level), or any other error. -/
inductive JsError where
  | plain (message : String)
  | axiosRequest (message : String)
  | axiosResponse (status : Nat) (dataErrorMessage : Option String)
      (statusText : String) (message : String)

/-- The `message` property of the error object. -/
def JsError.message : JsError → String
  | .plain m => m
  | .axiosRequest m => m
  | .axiosResponse _ _ _ m => m

/-- `BaseGoogleAIService.handleError` (base service file, lines 85-99): rethrows
every caught error as a generic operation-failed error.  The embedding returns
the message of the error it throws. -/
def BaseGoogleAIService.handleError (error : JsError) (operation : String) : String :=
  match error with
  | .axiosResponse status dataMsg statusText _ =>
      operation ++ " failed: " ++ jsOr dataMsg statusText ++
        " (Status: " ++ toString status ++ ")"
  | .axiosRequest msg => operation ++ " failed: Network error - " ++ msg
  | .plain msg => operation ++ " failed: " ++ msg

/-! ## The asynchronous job poller

`LyriaService.pollMusicGeneration` (lyria.ts lines 119-166) and
`VeoService.pollVideoGeneration` (veo service, lines 269-316) are the same
loop up to the wait/interval constants, the terminal messages and the
result-processing function, so the loop is embedded once. -/

/-- The `response.predictions` payload of a long-running-operation status
response.  `predictions` is `some []` when the field holds an empty array
(an empty array is truthy in JavaScript). -/
structure OpResponse (Pred : Type) where
  predictions : Option (List Pred)

/-- A long-running-operation status document (`statusResponse.data`). -/
structure Operation (Pred : Type) where
  done : Bool
  error : Option String
  response : Option (OpResponse Pred)

/-- One observation of the polling loop: either the status GET threw
(message `msg`) or it returned the operation document `op`.  `dt` is the
time in milliseconds consumed by the request. -/
inductive PollEvent (Pred : Type) where
  | fail (msg : String) (dt : Nat)
  | ok (op : Operation Pred) (dt : Nat)

/-- The outcome of one execution of the `try` block of the polling loop:
a `return` of the final result, a thrown error (which the loop's own
`catch` receives), or falling through to the sleep at the end of the block. -/
inductive TryOutcome (R : Type) where
  | ret (r : R)
  | threw (msg : String)
  | sleepRetry

/-- One execution of the `try` block body: if the GET succeeded and the
operation is `done` with an `error`, the code throws
`doneErrText ++ error.message`; if it is `done` with `response.predictions`
present, it returns the processed first prediction (`predictions[0]` is
`undefined`, i.e. `none`, for an empty array, and a `process` failure is a
thrown exception); otherwise execution reaches the sleep. -/
def tryIteration {Pred R : Type} (doneErrText : String)
    (process : Option Pred → Except String R) :
    PollEvent Pred → TryOutcome R × Nat
  | .fail msg dt => (.threw msg, dt)
  | .ok op dt =>
    (if op.done then
      match op.error with
      | some emsg => .threw (doneErrText ++ emsg)
      | none =>
        match op.response with
        | some resp =>
          match resp.predictions with
          | some preds =>
            (match process preds.head? with
             | .ok r => .ret r
             | .error m => .threw m)
          | none => .sleepRetry
        | none => .sleepRetry
    else .sleepRetry, dt)

/-- Sentinel returned only when the structural fuel of `pollLoop` runs out.
The fuel passed by the services exceeds the maximum wait, and each loop
iteration moves `elapsed` forward by at least the poll interval, so this
value is unreachable; the claim theorems prove the possible outcomes. -/
def fuelOutMsg : String := "model out of fuel"

/-- The polling loop (`while (Date.now() - startTime < maxWaitTime) { try
{...} catch {...} }`).  Arguments after the trace: fuel, the iteration
index `i`, and `elapsed` time `e`.  Returns the propagated result together
with the number of status requests issued.  A thrown error is examined by
the `catch` block: past the deadline it becomes the timeout error,
otherwise it is swallowed and the loop sleeps one interval and retries. -/
def pollLoop {Pred R : Type} (maxWait interval : Nat) (doneErrText timeoutMsg : String)
    (process : Option Pred → Except String R) (trace : Nat → PollEvent Pred) :
    Nat → Nat → Nat → Except String R × Nat
  | 0, _, _ => (.error fuelOutMsg, 0)
  | fuel+1, i, e =>
    if e < maxWait then
      match tryIteration doneErrText process (trace i) with
      | (.ret r, _) => (.ok r, 1)
      | (.sleepRetry, dt) =>
        let rest := pollLoop maxWait interval doneErrText timeoutMsg process trace
          fuel (i+1) (e + dt + interval)
        (rest.1, rest.2 + 1)
      | (.threw _, dt) =>
        if maxWait ≤ e + dt then (.error timeoutMsg, 1)
        else
          let rest := pollLoop maxWait interval doneErrText timeoutMsg process trace
            fuel (i+1) (e + dt + interval)
          (rest.1, rest.2 + 1)
    else (.error timeoutMsg, 0)

/-! ## Lyria (music generation) -/

/-- `maxWaitTime` of `pollMusicGeneration`: 8 minutes. -/
def lyriaMaxWaitTime : Nat := 8 * 60 * 1000

/-- `pollInterval` of `pollMusicGeneration`: 20 seconds. -/
def lyriaPollInterval : Nat := 20 * 1000

/-- A Lyria prediction.  `savedSize` is the oracle for the size `fs.stat`
reports for the music file written (or downloaded) for this prediction. -/
structure LyriaPrediction where
  bytesBase64Encoded : Option String
  audioUri : Option String
  savedSize : Int

/-- A saved music artifact.  Only the byte size is claim-relevant; path,
url, mimeType and metadata are omitted. -/
structure MusicFile where
  size : Int

/-- A `LyriaResponse`.  The `request`/`metadata` fields are omitted: no
claim about Lyria mentions them. -/
structure LyriaResponse where
  success : Bool
  music : List MusicFile

/-- `LyriaService.processMusicResult` (lyria.ts lines 171-244) applied to
`predictions[0]`.  When the prediction is `undefined` (empty predictions
array) the first property access throws a TypeError.  File writes and
downloads are modeled as succeeding, with `fs.stat` reporting
`savedSize`.  A prediction with neither `bytesBase64Encoded` nor
`audioUri` produces an empty `music` list, still with `success: true`. -/
def LyriaService.processMusicResult (pred : Option LyriaPrediction) :
    Except String LyriaResponse :=
  match pred with
  | none => .error "TypeError: Cannot read properties of undefined"
  | some p =>
    let musicFiles : List MusicFile :=
      match p.bytesBase64Encoded with
      | some _ => [{ size := p.savedSize }]
      | none =>
        match p.audioUri with
        | some _ => [{ size := p.savedSize }]
        | none => []
    .ok { success := true, music := musicFiles }

/-- The Lyria polling loop with its concrete constants and messages. -/
def lyriaPoll (trace : Nat → PollEvent LyriaPrediction) (fuel i e : Nat) :
    Except String LyriaResponse × Nat :=
  pollLoop lyriaMaxWaitTime lyriaPollInterval "Music generation failed: "
    "Music generation timeout" LyriaService.processMusicResult trace fuel i e

/-- `LyriaService.pollMusicGeneration` (lyria.ts lines 119-166): the loop
started at iteration 0 with `elapsed = 0` and ample fuel. -/
def LyriaService.pollMusicGeneration (trace : Nat → PollEvent LyriaPrediction) :
    Except String LyriaResponse × Nat :=
  lyriaPoll trace (lyriaMaxWaitTime + 1) 0 0

/-! ## Veo (video generation) -/

/-- `maxWaitTime` of `pollVideoGeneration`: 10 minutes. -/
def veoMaxWaitTime : Nat := 10 * 60 * 1000

/-- `pollInterval` of `pollVideoGeneration`: 30 seconds. -/
def veoPollInterval : Nat := 30 * 1000

/-- A Veo prediction; `savedSize` is the `fs.stat` oracle, as for Lyria. -/
structure VeoPrediction where
  bytesBase64Encoded : Option String
  videoUri : Option String
  savedSize : Int

/-- A saved video artifact (size only, as for `MusicFile`). -/
structure VideoFile where
  size : Int

/-- A `VeoResponse` (claim-relevant fields only). -/
structure VeoResponse where
  success : Bool
  videos : List VideoFile

/-- `VeoService.processVideoResult` (veo service, lines 321-393) applied to
`predictions[0]`, modeled exactly as `LyriaService.processMusicResult`. -/
def VeoService.processVideoResult (pred : Option VeoPrediction) :
    Except String VeoResponse :=
  match pred with
  | none => .error "TypeError: Cannot read properties of undefined"
  | some p =>
    let videos : List VideoFile :=
      match p.bytesBase64Encoded with
      | some _ => [{ size := p.savedSize }]
      | none =>
        match p.videoUri with
        | some _ => [{ size := p.savedSize }]
        | none => []
    .ok { success := true, videos := videos }

/-- The Veo polling loop with its concrete constants and messages. -/
def veoPoll (trace : Nat → PollEvent VeoPrediction) (fuel i e : Nat) :
    Except String VeoResponse × Nat :=
  pollLoop veoMaxWaitTime veoPollInterval "Video generation failed: "
    "Video generation timeout" VeoService.processVideoResult trace fuel i e

/-- `VeoService.pollVideoGeneration` (veo service, lines 269-316). -/
def VeoService.pollVideoGeneration (trace : Nat → PollEvent VeoPrediction) :
    Except String VeoResponse × Nat :=
  veoPoll trace (veoMaxWaitTime + 1) 0 0

/-- A status response that is `done` and carries a result payload
(`response.predictions` is present).  Only such a response can make the
polling loop return a result. -/
def hasDoneResult {Pred : Type} : PollEvent Pred → Prop
  | .fail _ _ => False
  | .ok op _ => op.done = true ∧ ∃ resp, op.response = some resp ∧ resp.predictions.isSome = true

/-! ## Imagen (image generation) -/

/-- An `ImagenRequest` (fields read by `validateRequest` and the claims). -/
structure ImagenRequest where
  prompt : String
  negativePrompt : Option String
  width : Option Int
  height : Option Int
  numImages : Option Int
  guidanceScale : Option Int
  seed : Option Int
  steps : Option Int
  language : Option String

/-- `ImagenService.validateRequest` (imagen.ts lines 20-42).  Every range
check is guarded by the truthiness of the optional field. -/
def ImagenService.validateRequest (r : ImagenRequest) : Except String Bool :=
  if r.prompt = "" then .error "Prompt is required for image generation"
  else if 1000 < r.prompt.length then .error "Prompt must be 1000 characters or less"
  else if numTruthy r.width ∧ (r.width.getD 0 < 64 ∨ 2048 < r.width.getD 0) then
    .error "Width must be between 64 and 2048 pixels"
  else if numTruthy r.height ∧ (r.height.getD 0 < 64 ∨ 2048 < r.height.getD 0) then
    .error "Height must be between 64 and 2048 pixels"
  else if numTruthy r.numImages ∧ (r.numImages.getD 0 < 1 ∨ 8 < r.numImages.getD 0) then
    .error "Number of images must be between 1 and 8"
  else .ok true

/-- An Imagen prediction as returned by the `:predict` call. -/
structure ImagenPrediction where
  bytesBase64Encoded : Option String

/-- The body of the `:predict` HTTP response (`response.data`). -/
structure ImagenApiData where
  predictions : Option (List ImagenPrediction)

/-- Environment of one `ImagenService.processRequest` call: the outcome of
the axios POST, and the size `fs.stat` reports for the `k`-th image file
the loop saves.  Authentication and file writes are modeled as
succeeding. -/
structure ImagenEnv where
  postResult : Except JsError ImagenApiData
  statSize : Nat → Int

/-- A saved image artifact (size only). -/
structure ImageFile where
  size : Int

/-- An `ImagenResponse` (claim-relevant fields). -/
structure ImagenResponse where
  success : Bool
  images : List ImageFile
  request : ImagenRequest

/-- The saving loop of `ImagenService.processRequest` (imagen.ts lines
91-121): predictions without `bytesBase64Encoded` are skipped; each saved
prediction contributes one image whose size is the `fs.stat` size of the
written file (`statSize k` for the `k`-th file saved). -/
def imagenCollect (statSize : Nat → Int) : Nat → List ImagenPrediction → List ImageFile
  | _, [] => []
  | k, p :: rest =>
    match p.bytesBase64Encoded with
    | some _ => { size := statSize k } :: imagenCollect statSize (k+1) rest
    | none => imagenCollect statSize k rest

/-- The `try` block of `ImagenService.processRequest` (imagen.ts lines
48-139): validate, POST, default the missing `predictions` field to `[]`,
save the encoded predictions, and return a `success: true` response. -/
def ImagenService.processBody (req : ImagenRequest) (env : ImagenEnv) :
    Except JsError ImagenResponse :=
  match ImagenService.validateRequest req with
  | .error m => .error (.plain m)
  | .ok _ =>
    match env.postResult with
    | .error e => .error e
    | .ok data =>
      let preds := data.predictions.getD []
      .ok { success := true
            images := imagenCollect env.statSize 0 preds
            request := req }

/-- `ImagenService.processRequest` (imagen.ts lines 47-143): the whole body
runs in one `try`; the `catch` hands every error to `handleError`. -/
def ImagenService.processRequest (req : ImagenRequest) (env : ImagenEnv) :
    Except String ImagenResponse :=
  match ImagenService.processBody req env with
  | .ok r => .ok r
  | .error e => .error (BaseGoogleAIService.handleError e "Imagen image generation")

/-! ## Chirp (speech generation) -/

/-- A `ChirpRequest` (fields read by `validateRequest`). -/
structure ChirpRequest where
  prompt : String
  voice : Option String
  language : Option String
  emotion : Option String
  speed : Option String
  pitch : Option String

/-- `ChirpService.validateRequest` (chirp service, lines 20-45). -/
def ChirpService.validateRequest (r : ChirpRequest) : Except String Bool :=
  if r.prompt = "" then .error "Text prompt is required for speech generation"
  else if 5000 < r.prompt.length then .error "Text must be 5000 characters or less"
  else if strTruthy r.voice ∧ r.voice.getD "" ∉ ["male", "female", "child", "elderly"] then
    .error "Voice must be one of: male, female, child, elderly"
  else if strTruthy r.language ∧
      r.language.getD "" ∉ ["en", "ja", "es", "fr", "de", "it", "pt", "ru", "ko", "zh"] then
    .error "Language must be one of: en, ja, es, fr, de, it, pt, ru, ko, zh"
  else if strTruthy r.emotion ∧
      r.emotion.getD "" ∉ ["neutral", "happy", "sad", "excited", "calm", "angry"] then
    .error "Emotion must be one of: neutral, happy, sad, excited, calm, angry"
  else .ok true

/-- The body of the `text:synthesize` HTTP response (`response.data`). -/
structure ChirpApiData where
  audioContent : Option String

/-- Environment of one `ChirpService.processRequest` call: POST outcome and
the `fs.stat` size of the single audio file possibly written. -/
structure ChirpEnv where
  postResult : Except JsError ChirpApiData
  statSize : Int

/-- A saved audio artifact (size only). -/
structure AudioFile where
  size : Int

/-- A `ChirpResponse` (claim-relevant fields). -/
structure ChirpResponse where
  success : Bool
  audio : List AudioFile
  request : ChirpRequest

/-- The `try` block of `ChirpService.processRequest` (chirp service, lines
50-150): validate, POST (the voice/SSML request construction is not
modeled: no claim depends on it), save `audioContent` when present, and
return a `success: true` response — with an empty `audio` list when the
response carried no `audioContent`. -/
def ChirpService.processBody (req : ChirpRequest) (env : ChirpEnv) :
    Except JsError ChirpResponse :=
  match ChirpService.validateRequest req with
  | .error m => .error (.plain m)
  | .ok _ =>
    match env.postResult with
    | .error e => .error e
    | .ok data =>
      let audioGenerations : List AudioFile :=
        match data.audioContent with
        | some _ => [{ size := env.statSize }]
        | none => []
      .ok { success := true, audio := audioGenerations, request := req }

/-- `ChirpService.processRequest` (chirp service, lines 50-155). -/
def ChirpService.processRequest (req : ChirpRequest) (env : ChirpEnv) :
    Except String ChirpResponse :=
  match ChirpService.processBody req env with
  | .ok r => .ok r
  | .error e => .error (BaseGoogleAIService.handleError e "Chirp speech generation")

/-! ## Lyria and Veo request validation -/

/-- The `tempo` field of a `LyriaRequest` may hold a number or a named
tempo string; `typeof request.tempo === 'number'` selects the `num` case. -/
inductive TempoVal where
  | num (n : Int)
  | str (s : String)

/-- A `LyriaRequest` (fields read by `validateRequest`). -/
structure LyriaRequest where
  prompt : String
  duration : Option Int
  genre : Option String
  mood : Option String
  tempo : Option TempoVal

/-- The tempo range check of `LyriaService.validateRequest`: applied
whenever `tempo` is a number — including `0`, since the code tests
`typeof`, not truthiness, for this one field. -/
def tempoOutOfRange : Option TempoVal → Prop
  | some (.num n) => n < 60 ∨ 200 < n
  | _ => False

instance : DecidablePred tempoOutOfRange := by
  intro t
  unfold tempoOutOfRange
  match t with
  | none => exact inferInstanceAs (Decidable False)
  | some (.num n) => exact inferInstanceAs (Decidable (_ ∨ _))
  | some (.str _) => exact inferInstanceAs (Decidable False)

/-- `LyriaService.validateRequest` (lyria.ts lines 20-48). -/
def LyriaService.validateRequest (r : LyriaRequest) : Except String Bool :=
  if r.prompt = "" then .error "Prompt is required for music generation"
  else if 1000 < r.prompt.length then .error "Prompt must be 1000 characters or less"
  else if numTruthy r.duration ∧ (r.duration.getD 0 < 10 ∨ 300 < r.duration.getD 0) then
    .error "Duration must be between 10 and 300 seconds"
  else if strTruthy r.genre ∧
      r.genre.getD "" ∉
        ["pop", "rock", "classical", "jazz", "electronic", "ambient", "hip-hop", "country"] then
    .error "Genre must be one of: pop, rock, classical, jazz, electronic, ambient, hip-hop, country"
  else if strTruthy r.mood ∧
      r.mood.getD "" ∉ ["happy", "sad", "energetic", "calm", "mysterious", "dramatic", "romantic"] then
    .error "Mood must be one of: happy, sad, energetic, calm, mysterious, dramatic, romantic"
  else if tempoOutOfRange r.tempo then
    .error "Tempo (BPM) must be between 60 and 200"
  else .ok true

/-- A `VeoRequest` (fields read by `validateRequest`). -/
structure VeoRequest where
  prompt : String
  duration : Option Int
  resolution : Option String
  fps : Option Int

/-- `VeoService.validateRequest` (veo service, lines 178-202). -/
def VeoService.validateRequest (r : VeoRequest) : Except String Bool :=
  if r.prompt = "" then .error "Prompt is required for video generation"
  else if 2000 < r.prompt.length then .error "Prompt must be 2000 characters or less"
  else if numTruthy r.duration ∧ (r.duration.getD 0 < 2 ∨ 120 < r.duration.getD 0) then
    .error "Duration must be between 2 and 120 seconds"
  else if strTruthy r.resolution ∧ r.resolution.getD "" ∉ ["720p", "1080p", "4K"] then
    .error "Resolution must be one of: 720p, 1080p, 4K"
  else if numTruthy r.fps ∧ r.fps.getD 0 ∉ ([24, 30, 60] : List Int) then
    .error "FPS must be one of: 24, 30, 60"
  else .ok true

/-! ## AVTool (local media processing) -/

/-- An `AVToolRequest`.  The nested `options` object is flattened into the
`opt...` fields (`options?.startTime`, `options?.duration`,
`options?.width`, `options?.height`, `options?.format`). -/
structure AVToolRequest where
  operation : String
  inputFiles : List String
  outputPath : Option String
  optStartTime : Option String
  optDuration : Option String
  optWidth : Option Int
  optHeight : Option Int
  optFormat : Option String

/-- A produced media file (path and `fs.stat` size; mimeType and metadata
are omitted, no claim mentions them). -/
structure AVOutputFile where
  path : String
  size : Int

/-- An `AVToolResponse`.  `metadata` is omitted. -/
structure AVToolResponse where
  success : Bool
  error : Option String
  outputFiles : List AVOutputFile
  request : AVToolRequest

/-- Environment of one `AVToolService.processRequest` call: whether
`fs.access` finds each path, the `generateFileName` outcomes (by call
order), the outcome of each ffmpeg `execAsync` call (by call order,
`some msg` when it throws an error with message `msg`), and the `fs.stat`
outcome per path.  `fs.writeFile`/`fs.unlink` are modeled as succeeding. -/
structure AVEnv where
  fileExists : String → Bool
  genName : Nat → String
  execFail : Nat → Option String
  statSize : String → Except String Int

/-- The valid operations list of `AVToolService.validateRequest`. -/
def validOperations : List String :=
  ["merge", "extract_audio", "add_subtitles", "trim", "resize", "convert"]

/-- The file-existence loop of `AVToolService.validateRequest`: the first
input file `fs.access` rejects, if any. -/
def findMissingFile (fileExists : String → Bool) : List String → Option String
  | [] => none
  | f :: rest => if fileExists f then findMissingFile fileExists rest else some f

/-- `AVToolService.validateRequest` (avtool.ts lines 22-46). -/
def AVToolService.validateRequest (env : AVEnv) (req : AVToolRequest) :
    Except String Bool :=
  if req.operation = "" then .error "Operation is required"
  else if req.inputFiles.length = 0 then .error "At least one input file is required"
  else if req.operation ∉ validOperations then
    .error "Operation must be one of: merge, extract_audio, add_subtitles, trim, resize, convert"
  else
    match findMissingFile env.fileExists req.inputFiles with
    | some f => .error ("Input file not found: " ++ f)
    | none => .ok true

/-- `BaseGoogleAIService.getFileInfo` (base service file, lines 138-151)
reduced to the `size` field: a failing `fs.stat` is rethrown with the
`Failed to get file info` message. -/
def BaseGoogleAIService.getFileInfoSize (statSize : String → Except String Int)
    (p : String) : Except String Int :=
  match statSize p with
  | .ok sz => .ok sz
  | .error e => .error ("Failed to get file info for " ++ p ++ ": " ++ e)

/-- `path.join(this.outputDir, fileName)` with the output directory
abbreviated to `output`. -/
def joinOut (fileName : String) : String := "output/" ++ fileName

/-- JavaScript `request.outputPath || path.join(outputDir, genName 0)`. -/
def outPathOr (req : AVToolRequest) (generated : String) : String :=
  match req.outputPath with
  | none => generated
  | some s => if s = "" then generated else s

/-- The per-input-file loop shared by `extractAudio`, `trimMedia`,
`resizeVideo` and `convertFormat` (avtool.ts lines 152-181, 253-283,
306-334, 356-385): for the `i`-th input file, generate an output name, run
ffmpeg (the exact command string is not modeled — no claim depends on it),
and stat the produced file.  Any throw aborts the whole handler. -/
def execStatLoop (env : AVEnv) : Nat → List String → Except JsError (List AVOutputFile)
  | _, [] => .ok []
  | i, _f :: rest =>
    let outputPath := joinOut (env.genName i)
    match env.execFail i with
    | some m => .error (.plain m)
    | none =>
      match BaseGoogleAIService.getFileInfoSize env.statSize outputPath with
      | .error m => .error (.plain m)
      | .ok sz =>
        match execStatLoop env (i+1) rest with
        | .error e => .error e
        | .ok files => .ok ({ path := outputPath, size := sz } :: files)

/-- `AVToolService.mergeFiles` (avtool.ts lines 93-144).  Its inner
`try/catch` rethrows any failure as `Merge failed: ${error}`, and the
template stringification of an `Error` is `Error: message`. -/
def AVToolService.mergeFiles (env : AVEnv) (req : AVToolRequest) :
    Except JsError AVToolResponse :=
  let outputPath := outPathOr req (joinOut (env.genName 0))
  match env.execFail 0 with
  | some m => .error (.plain ("Merge failed: Error: " ++ m))
  | none =>
    match BaseGoogleAIService.getFileInfoSize env.statSize outputPath with
    | .error m => .error (.plain ("Merge failed: Error: " ++ m))
    | .ok sz =>
      .ok { success := true
            error := none
            outputFiles := [{ path := outputPath, size := sz }]
            request := req }

/-- `AVToolService.extractAudio` (avtool.ts lines 149-194). -/
def AVToolService.extractAudio (env : AVEnv) (req : AVToolRequest) :
    Except JsError AVToolResponse :=
  match execStatLoop env 0 req.inputFiles with
  | .error e => .error e
  | .ok files =>
    .ok { success := true, error := none, outputFiles := files, request := req }

/-- `AVToolService.addSubtitles` (avtool.ts lines 199-243). -/
def AVToolService.addSubtitles (env : AVEnv) (req : AVToolRequest) :
    Except JsError AVToolResponse :=
  if req.inputFiles.length ≠ 2 then
    .error (.plain "Subtitle operation requires exactly 2 files: video and subtitle file")
  else
    let outputPath := outPathOr req (joinOut (env.genName 0))
    match env.execFail 0 with
    | some m => .error (.plain m)
    | none =>
      match BaseGoogleAIService.getFileInfoSize env.statSize outputPath with
      | .error m => .error (.plain m)
      | .ok sz =>
        .ok { success := true
              error := none
              outputFiles := [{ path := outputPath, size := sz }]
              request := req }

/-- `AVToolService.trimMedia` (avtool.ts lines 248-296): same loop shape as
`extractAudio`; the trim options only shape the ffmpeg command string. -/
def AVToolService.trimMedia (env : AVEnv) (req : AVToolRequest) :
    Except JsError AVToolResponse :=
  match execStatLoop env 0 req.inputFiles with
  | .error e => .error e
  | .ok files =>
    .ok { success := true, error := none, outputFiles := files, request := req }

/-- `AVToolService.resizeVideo` (avtool.ts lines 301-347). -/
def AVToolService.resizeVideo (env : AVEnv) (req : AVToolRequest) :
    Except JsError AVToolResponse :=
  match execStatLoop env 0 req.inputFiles with
  | .error e => .error e
  | .ok files =>
    .ok { success := true, error := none, outputFiles := files, request := req }

/-- `AVToolService.convertFormat` (avtool.ts lines 352-398). -/
def AVToolService.convertFormat (env : AVEnv) (req : AVToolRequest) :
    Except JsError AVToolResponse :=
  match execStatLoop env 0 req.inputFiles with
  | .error e => .error e
  | .ok files =>
    .ok { success := true, error := none, outputFiles := files, request := req }

/-- The `try` block of `AVToolService.processRequest` (avtool.ts lines
51-88): validate, then dispatch on the operation name. -/
def AVToolService.processBody (env : AVEnv) (req : AVToolRequest) :
    Except JsError AVToolResponse :=
  match AVToolService.validateRequest env req with
  | .error m => .error (.plain m)
  | .ok _ =>
    if req.operation = "merge" then AVToolService.mergeFiles env req
    else if req.operation = "extract_audio" then AVToolService.extractAudio env req
    else if req.operation = "add_subtitles" then AVToolService.addSubtitles env req
    else if req.operation = "trim" then AVToolService.trimMedia env req
    else if req.operation = "resize" then AVToolService.resizeVideo env req
    else if req.operation = "convert" then AVToolService.convertFormat env req
    else .error (.plain ("Unsupported operation: " ++ req.operation))

/-- `AVToolService.processRequest` (avtool.ts lines 51-88): the `catch`
hands every error to `handleError`. -/
def AVToolService.processRequest (env : AVEnv) (req : AVToolRequest) :
    Except String AVToolResponse :=
  match AVToolService.processBody env req with
  | .ok r => .ok r
  | .error e => .error (BaseGoogleAIService.handleError e "AVTool processing")

/-- The per-item failure record `batchProcess` pushes when an operation
throws (avtool.ts lines 418-429): `error instanceof Error` holds for every
error the model produces, so `error` carries the thrown message. -/
def batchFailureRecord (op : AVToolRequest) (msg : String) : AVToolResponse :=
  { success := false, error := some msg, outputFiles := [], request := op }

/-- The loop of `AVToolService.batchProcess` (avtool.ts lines 408-436);
`envs i` is the file-system/ffmpeg environment the `i`-th operation runs
against.  The fixed 1000 ms inter-operation delay has no observable
effect in the model. -/
def AVToolService.batchGo (envs : Nat → AVEnv) : Nat → List AVToolRequest → List AVToolResponse
  | _, [] => []
  | i, op :: rest =>
    (match AVToolService.processRequest (envs i) op with
     | .ok result => result
     | .error m => batchFailureRecord op m) :: AVToolService.batchGo envs (i+1) rest

/-- `AVToolService.batchProcess` (avtool.ts lines 403-442): the result list
together with the success count the function reports at the end
(`results.filter(r => r.success).length`). -/
def AVToolService.batchProcess (envs : Nat → AVEnv) (operations : List AVToolRequest) :
    List AVToolResponse × Nat :=
  let results := AVToolService.batchGo envs 0 operations
  (results, (results.filter (fun r => r.success)).length)

/-- Whether an `Except` is a success. -/
def isOkE {ε α : Type} : Except ε α → Bool
  | .ok _ => true
  | .error _ => false

/-! ## Chirp text chunking

`ChirpService.splitTextIntoChunks` (chirp service, lines 321-347) is
embedded on `List Char`; a JavaScript string's `.length` and the model's
list length agree on the claim-relevant inputs (all delimiter and
whitespace characters involved are single UTF-16 units). -/

/-- The sentence delimiter class `[.!?。！？]`. -/
def isDelimChar (c : Char) : Bool :=
  c = '.' || c = '!' || c = '?' || c = '。' || c = '！' || c = '？'

/-- JavaScript `text.split(regexp)` for a single-character class: every
occurrence of a delimiter ends a piece (so `"ab."` splits into `"ab"`
and `""`, and the empty string splits into one empty piece). -/
def splitChars (p : Char → Bool) : List Char → List (List Char)
  | [] => [[]]
  | c :: cs =>
    if p c then [] :: splitChars p cs
    else
      match splitChars p cs with
      | [] => [[c]]
      | piece :: rest => (c :: piece) :: rest

/-- JavaScript `String.prototype.trim` on the model's character lists. -/
def trimChars (l : List Char) : List Char :=
  ((l.dropWhile Char.isWhitespace).reverse.dropWhile Char.isWhitespace).reverse

/-- The non-blank sentences of a text, in order: split on the delimiter
class, trim each piece, drop the pieces that trim to nothing.  This is the
set of sentences the chunking loop actually emits. -/
def sentencesOf (l : List Char) : List (List Char) :=
  ((splitChars isDelimChar l).map trimChars).filter (fun s => !s.isEmpty)

/-- The loop of `splitTextIntoChunks`: `current` is `currentChunk`.  Blank
sentences are skipped; `sentence.match(/[.!?。！？]/)` is evaluated on the
raw piece (it can never succeed, since split pieces contain no delimiter);
the length check does not count the joining space. -/
def chunksGo (maxChunkSize : Nat) :
    List (List Char) → List Char → List (List Char)
  | [], current => if current.isEmpty then [] else [current]
  | s :: rest, current =>
    let t := trimChars s
    if t.isEmpty then chunksGo maxChunkSize rest current
    else
      let swp := t ++ (if s.any isDelimChar then [] else ['.'])
      if current.length + swp.length ≤ maxChunkSize then
        chunksGo maxChunkSize rest
          (current ++ (if current.isEmpty then [] else [' ']) ++ swp)
      else
        (if current.isEmpty then [] else [current]) ++ chunksGo maxChunkSize rest swp

/-- `ChirpService.splitTextIntoChunks` (chirp service, lines 321-347). -/
def ChirpService.splitTextIntoChunks (text : List Char) (maxChunkSize : Nat) :
    List (List Char) :=
  chunksGo maxChunkSize (splitChars isDelimChar text) []

/-- Substring test on character lists (`needle` occurs contiguously in
`hay`), used to state that a message does not carry another message. -/
def subOf (needle hay : List Char) : Bool :=
  match hay with
  | [] => needle.isEmpty
  | _ :: t => needle.isPrefixOf hay || subOf needle t

/-! ## Concrete inputs used by counterexamples and witnesses -/

/-- A Lyria polling run in which every status request answers
`{done: true, error: {message: "quota exceeded"}}` instantly. -/
def lyriaDoneErrorTrace : Nat → PollEvent LyriaPrediction :=
  fun _ => .ok { done := true, error := some "quota exceeded", response := none } 0

/-- The Veo counterpart of `lyriaDoneErrorTrace`. -/
def veoDoneErrorTrace : Nat → PollEvent VeoPrediction :=
  fun _ => .ok { done := true, error := some "quota exceeded", response := none } 0

/-- A Lyria polling run in which every status response is `done`, carries
no error, and carries a `response.predictions` field holding an empty
array — a present result payload with no first prediction. -/
def lyriaEmptyPredsTrace : Nat → PollEvent LyriaPrediction :=
  fun _ => .ok { done := true, error := none, response := some { predictions := some [] } } 0

/-- A Lyria prediction with base64-encoded audio saved at 7 bytes. -/
def lyriaSamplePred : LyriaPrediction :=
  { bytesBase64Encoded := some "QUJD", audioUri := none, savedSize := 7 }

/-- A Lyria status trace whose first response is `done` with one
base64-encoded prediction of saved size 7. -/
def lyriaOnePredTrace : Nat → PollEvent LyriaPrediction :=
  fun _ =>
    .ok { done := true, error := none
          response := some { predictions := some [lyriaSamplePred] } } 0

/-- A Veo prediction with base64-encoded video saved at 9 bytes. -/
def veoSamplePred : VeoPrediction :=
  { bytesBase64Encoded := some "QUJD", videoUri := none, savedSize := 9 }

/-- A Veo status trace whose first response is `done` with one prediction. -/
def veoOnePredTrace : Nat → PollEvent VeoPrediction :=
  fun _ =>
    .ok { done := true, error := none
          response := some { predictions := some [veoSamplePred] } } 0

/-- A polling run in which every status request itself fails. -/
def lyriaAllFailTrace : Nat → PollEvent LyriaPrediction :=
  fun _ => .fail "read ECONNRESET" 0

/-- The Veo counterpart of `lyriaAllFailTrace`. -/
def veoAllFailTrace : Nat → PollEvent VeoPrediction :=
  fun _ => .fail "read ECONNRESET" 0

/-- A minimal valid Imagen request. -/
def imagenCatRequest : ImagenRequest :=
  { prompt := "A cat", negativePrompt := none, width := none, height := none
    numImages := none, guidanceScale := none, seed := none, steps := none
    language := none }

/-- An Imagen environment whose `:predict` call succeeds but returns a
body with no `predictions` field. -/
def imagenNoPredsEnv : ImagenEnv :=
  { postResult := .ok { predictions := none }, statSize := fun _ => 0 }

/-- An Imagen environment whose `:predict` call fails with an HTTP 500
response carrying a server-side error message. -/
def imagenHttp500Env : ImagenEnv :=
  { postResult := .error (.axiosResponse 500 (some "backend unavailable")
      "Internal Server Error" "Request failed with status code 500")
    statSize := fun _ => 0 }

/-- An Imagen environment returning one encoded prediction, saved at 42
bytes. -/
def imagenOneImageEnv : ImagenEnv :=
  { postResult := .ok { predictions := some [{ bytesBase64Encoded := some "QUJD" }] }
    statSize := fun _ => 42 }

/-- A minimal valid Chirp request. -/
def chirpHelloRequest : ChirpRequest :=
  { prompt := "Hello there", voice := none, language := none, emotion := none
    speed := none, pitch := none }

/-- A Chirp environment returning audio content saved at 23 bytes. -/
def chirpAudioEnv : ChirpEnv :=
  { postResult := .ok { audioContent := some "QUJD" }, statSize := 23 }

/-- A Lyria polling run whose first status request hangs for the whole
wait budget before failing. -/
def lyriaSlowFailTrace : Nat → PollEvent LyriaPrediction :=
  fun _ => .fail "read ECONNRESET" lyriaMaxWaitTime

/-- The Veo counterpart of `lyriaSlowFailTrace`. -/
def veoSlowFailTrace : Nat → PollEvent VeoPrediction :=
  fun _ => .fail "read ECONNRESET" veoMaxWaitTime

/-- Character lists containing no sentence delimiter (used to describe
the pieces produced by the split). -/
def noDelim (l : List Char) : Bool :=
  l.all (fun c => !isDelimChar c)

/-- The chunk the loop assembles from the trimmed sentences
`s₁, …, sₙ`: the string `s₁. s₂. … sₙ.` (each sentence gets its appended
period; later sentences are joined with a single space). -/
def joinChunk : List (List Char) → List Char
  | [] => []
  | s :: rest => s ++ ['.'] ++ (rest.map (fun t => ' ' :: (t ++ ['.']))).flatten

/-- A sentence as the chunking loop stores it: already trimmed, non-blank,
and free of delimiter characters. -/
def CleanSentence (t : List Char) : Prop :=
  trimChars t = t ∧ t ≠ [] ∧ noDelim t = true

/-! ## Poller lemmas -/

/-- The `try` block returns only on a `done` status response carrying a
`response.predictions` payload. -/
theorem tryIteration_ret {Pred R : Type} (dE : String)
    (process : Option Pred → Except String R) (ev : PollEvent Pred) (r : R) (dt : Nat)
    (h : tryIteration dE process ev = (.ret r, dt)) : hasDoneResult ev := by
  cases ev with
  | fail msg d => simp [tryIteration] at h
  | ok op d =>
    simp only [tryIteration, Prod.mk.injEq] at h
    obtain ⟨h1, _⟩ := h
    split at h1
    case isTrue hdone =>
      split at h1
      · exact absurd h1 (by simp)
      case h_2 herr =>
        split at h1
        case h_1 resp hresp =>
          split at h1
          case h_1 preds hpreds =>
            split at h1
            · exact ⟨hdone, resp, hresp, by simp [hpreds]⟩
            · exact absurd h1 (by simp)
          · exact absurd h1 (by simp)
        · exact absurd h1 (by simp)
    case isFalse hdone => exact absurd h1 (by simp)

/-- With fuel exceeding the remaining wait budget, a polling run ends
either with the timeout error or with a processed result. -/
theorem pollLoop_outcomes {Pred R : Type} (maxWait interval : Nat)
    (dE tM : String) (process : Option Pred → Except String R)
    (trace : Nat → PollEvent Pred) (hint : 0 < interval) :
    ∀ fuel i e, maxWait - e < fuel →
      (pollLoop maxWait interval dE tM process trace fuel i e).1 = .error tM ∨
      ∃ r, (pollLoop maxWait interval dE tM process trace fuel i e).1 = .ok r := by
  intro fuel
  induction fuel with
  | zero => intro i e h; omega
  | succ f ih =>
    intro i e h
    simp only [pollLoop]
    by_cases hg : e < maxWait
    · rw [if_pos hg]
      rcases htry : tryIteration dE process (trace i) with ⟨out, dt⟩
      cases out with
      | ret r => exact Or.inr ⟨r, rfl⟩
      | sleepRetry => exact ih (i+1) (e + dt + interval) (by omega)
      | threw m =>
        dsimp only
        by_cases hd : maxWait ≤ e + dt
        · rw [if_pos hd]; exact Or.inl rfl
        · rw [if_neg hd]; exact ih (i+1) (e + dt + interval) (by omega)
    · rw [if_neg hg]; exact Or.inl rfl

/-- If no observed status response is `done` with a result payload, a
polling run with enough fuel ends with the timeout error. -/
theorem pollLoop_noresult {Pred R : Type} (maxWait interval : Nat)
    (dE tM : String) (process : Option Pred → Except String R)
    (trace : Nat → PollEvent Pred) (hint : 0 < interval)
    (hnone : ∀ j, ¬ hasDoneResult (trace j)) :
    ∀ fuel i e, maxWait - e < fuel →
      (pollLoop maxWait interval dE tM process trace fuel i e).1 = .error tM := by
  intro fuel
  induction fuel with
  | zero => intro i e h; omega
  | succ f ih =>
    intro i e h
    simp only [pollLoop]
    by_cases hg : e < maxWait
    · rw [if_pos hg]
      rcases htry : tryIteration dE process (trace i) with ⟨out, dt⟩
      cases out with
      | ret r => exact absurd (tryIteration_ret dE process (trace i) r dt htry) (hnone i)
      | sleepRetry => exact ih (i+1) (e + dt + interval) (by omega)
      | threw m =>
        dsimp only
        by_cases hd : maxWait ≤ e + dt
        · rw [if_pos hd]
        · rw [if_neg hd]; exact ih (i+1) (e + dt + interval) (by omega)
    · rw [if_neg hg]

/-- One loop step on a `done` response with a non-empty predictions array:
the processed first prediction is returned at once. -/
theorem pollLoop_ret_step {Pred R : Type} (maxWait interval : Nat)
    (dE tM : String) (process : Option Pred → Except String R)
    (trace : Nat → PollEvent Pred) (fuel i e : Nat) (op : Operation Pred)
    (dt : Nat) (p : Pred) (ps : List Pred) (r : R)
    (htr : trace i = .ok op dt) (hdone : op.done = true) (herr : op.error = none)
    (hresp : op.response = some { predictions := some (p :: ps) })
    (hok : process (some p) = .ok r) (hge : e < maxWait) :
    pollLoop maxWait interval dE tM process trace (fuel+1) i e = (.ok r, 1) := by
  simp only [pollLoop, if_pos hge, htr, tryIteration, hdone, herr, hresp,
    if_true, List.head?, hok]

/-- One loop step on a failed status request: below the deadline the
failure is swallowed and the loop retries after one interval; at or past
the deadline the `catch` throws the timeout error. -/
theorem pollLoop_fail_step {Pred R : Type} (maxWait interval : Nat)
    (dE tM : String) (process : Option Pred → Except String R)
    (trace : Nat → PollEvent Pred) (fuel i e dt : Nat) (msg : String)
    (htr : trace i = .fail msg dt) (hge : e < maxWait) :
    (e + dt < maxWait →
       pollLoop maxWait interval dE tM process trace (fuel+1) i e =
         ((pollLoop maxWait interval dE tM process trace fuel (i+1) (e + dt + interval)).1,
          (pollLoop maxWait interval dE tM process trace fuel (i+1) (e + dt + interval)).2 + 1)) ∧
    (maxWait ≤ e + dt →
       pollLoop maxWait interval dE tM process trace (fuel+1) i e = (.error tM, 1)) := by
  constructor <;> intro hd
  · simp only [pollLoop, if_pos hge, htr, tryIteration]
    rw [if_neg (by omega)]
  · simp only [pollLoop, if_pos hge, htr, tryIteration]
    rw [if_pos hd]

/-! ## Claims -/

/-- C1: the claim states that a status response with `done` and an error
field makes the poller terminate with that error as a terminal failure.
The code instead throws `... generation failed: <message>` inside the same
`try` whose `catch` swallows every error, so on a run in which every
status response is `done` with an error the poller sleeps, retries (24
status requests for Lyria, 20 for Veo) and finally throws the generic
timeout error — the terminal error message never escapes the loop. -/
theorem c1_done_error_swallowed_not_terminal :
    LyriaService.pollMusicGeneration lyriaDoneErrorTrace =
      (.error "Music generation timeout", 24) ∧
    VeoService.pollVideoGeneration veoDoneErrorTrace =
      (.error "Video generation timeout", 20) :=
  ⟨rfl, rfl⟩

/-- C2: if no status response that is `done` with a result payload is ever
observed, the polling run ends with the configured timeout error; and
every polling run terminates, either returning a processed result or
throwing (the timeout error is the only error that escapes the loop). -/
theorem c2_poll_timeout_and_termination :
    (∀ trace : Nat → PollEvent LyriaPrediction,
       (LyriaService.pollMusicGeneration trace).1 = .error "Music generation timeout" ∨
       ∃ r, (LyriaService.pollMusicGeneration trace).1 = .ok r)
  ∧ (∀ trace : Nat → PollEvent LyriaPrediction,
       (∀ j, ¬ hasDoneResult (trace j)) →
       (LyriaService.pollMusicGeneration trace).1 = .error "Music generation timeout")
  ∧ (∀ trace : Nat → PollEvent VeoPrediction,
       (VeoService.pollVideoGeneration trace).1 = .error "Video generation timeout" ∨
       ∃ r, (VeoService.pollVideoGeneration trace).1 = .ok r)
  ∧ (∀ trace : Nat → PollEvent VeoPrediction,
       (∀ j, ¬ hasDoneResult (trace j)) →
       (VeoService.pollVideoGeneration trace).1 = .error "Video generation timeout") := by
  refine ⟨fun trace => ?_, fun trace h => ?_, fun trace => ?_, fun trace h => ?_⟩
  · exact pollLoop_outcomes lyriaMaxWaitTime lyriaPollInterval _ _
      LyriaService.processMusicResult trace (by decide) _ 0 0 (by omega)
  · exact pollLoop_noresult lyriaMaxWaitTime lyriaPollInterval _ _
      LyriaService.processMusicResult trace (by decide) h _ 0 0 (by omega)
  · exact pollLoop_outcomes veoMaxWaitTime veoPollInterval _ _
      VeoService.processVideoResult trace (by decide) _ 0 0 (by omega)
  · exact pollLoop_noresult veoMaxWaitTime veoPollInterval _ _
      VeoService.processVideoResult trace (by decide) h _ 0 0 (by omega)

/-- Witness for C2 at a concrete run: when every status request fails, both
pollers end with their timeout error. -/
theorem c2_witness :
    (LyriaService.pollMusicGeneration lyriaAllFailTrace).1 = .error "Music generation timeout" ∧
    (VeoService.pollVideoGeneration veoAllFailTrace).1 = .error "Video generation timeout" := by
  constructor
  · exact c2_poll_timeout_and_termination.2.1 lyriaAllFailTrace (fun j h => h)
  · exact c2_poll_timeout_and_termination.2.2.2 veoAllFailTrace (fun j h => h)

/-- C3, counterexample: the claim promises a return as soon as a `done`,
error-free status response with `response.predictions` present is
observed, with no further status requests.  On a run whose very first
response is `done` with `predictions` present but holding an empty array,
`predictions[0]` is `undefined`, `processMusicResult` throws a TypeError
into the loop's own `catch`, and the poller issues 24 status requests in
total before throwing the timeout error — it neither returns a processed
result nor stops polling after the first response. -/
theorem c3_counterexample_empty_payload :
    LyriaService.pollMusicGeneration lyriaEmptyPredsTrace =
      (.error "Music generation timeout", 24) :=
  rfl

/-- C3, amended: as soon as a status response is observed with `done` set,
no error field, and a result payload whose predictions array is
non-empty, the poller returns the processed result of the payload's first
prediction and performs no further status requests (the response carrying
the payload is the only request of the run's remainder). -/
theorem c3_done_nonempty_payload_returns :
    (∀ (trace : Nat → PollEvent LyriaPrediction) (fuel i e : Nat)
       (op : Operation LyriaPrediction) (dt : Nat) (p : LyriaPrediction)
       (ps : List LyriaPrediction),
       trace i = .ok op dt → op.done = true → op.error = none →
       op.response = some { predictions := some (p :: ps) } →
       e < lyriaMaxWaitTime →
       lyriaPoll trace (fuel+1) i e = (LyriaService.processMusicResult (some p), 1))
  ∧ (∀ (trace : Nat → PollEvent LyriaPrediction)
       (op : Operation LyriaPrediction) (dt : Nat) (p : LyriaPrediction)
       (ps : List LyriaPrediction),
       trace 0 = .ok op dt → op.done = true → op.error = none →
       op.response = some { predictions := some (p :: ps) } →
       LyriaService.pollMusicGeneration trace = (LyriaService.processMusicResult (some p), 1))
  ∧ (∀ (trace : Nat → PollEvent VeoPrediction) (fuel i e : Nat)
       (op : Operation VeoPrediction) (dt : Nat) (p : VeoPrediction)
       (ps : List VeoPrediction),
       trace i = .ok op dt → op.done = true → op.error = none →
       op.response = some { predictions := some (p :: ps) } →
       e < veoMaxWaitTime →
       veoPoll trace (fuel+1) i e = (VeoService.processVideoResult (some p), 1))
  ∧ (∀ (trace : Nat → PollEvent VeoPrediction)
       (op : Operation VeoPrediction) (dt : Nat) (p : VeoPrediction)
       (ps : List VeoPrediction),
       trace 0 = .ok op dt → op.done = true → op.error = none →
       op.response = some { predictions := some (p :: ps) } →
       VeoService.pollVideoGeneration trace = (VeoService.processVideoResult (some p), 1)) := by
  have hl : ∀ (trace : Nat → PollEvent LyriaPrediction) (fuel i e : Nat)
      (op : Operation LyriaPrediction) (dt : Nat) (p : LyriaPrediction)
      (ps : List LyriaPrediction),
      trace i = .ok op dt → op.done = true → op.error = none →
      op.response = some { predictions := some (p :: ps) } →
      e < lyriaMaxWaitTime →
      lyriaPoll trace (fuel+1) i e = (LyriaService.processMusicResult (some p), 1) := by
    intro trace fuel i e op dt p ps htr hdone herr hresp hge
    obtain ⟨r, hr⟩ : ∃ r, LyriaService.processMusicResult (some p) = .ok r := ⟨_, rfl⟩
    rw [hr]
    exact pollLoop_ret_step lyriaMaxWaitTime lyriaPollInterval _ _
      LyriaService.processMusicResult trace fuel i e op dt p ps r htr hdone herr hresp hr hge
  have hv : ∀ (trace : Nat → PollEvent VeoPrediction) (fuel i e : Nat)
      (op : Operation VeoPrediction) (dt : Nat) (p : VeoPrediction)
      (ps : List VeoPrediction),
      trace i = .ok op dt → op.done = true → op.error = none →
      op.response = some { predictions := some (p :: ps) } →
      e < veoMaxWaitTime →
      veoPoll trace (fuel+1) i e = (VeoService.processVideoResult (some p), 1) := by
    intro trace fuel i e op dt p ps htr hdone herr hresp hge
    obtain ⟨r, hr⟩ : ∃ r, VeoService.processVideoResult (some p) = .ok r := ⟨_, rfl⟩
    rw [hr]
    exact pollLoop_ret_step veoMaxWaitTime veoPollInterval _ _
      VeoService.processVideoResult trace fuel i e op dt p ps r htr hdone herr hresp hr hge
  refine ⟨hl, fun trace op dt p ps htr hdone herr hresp => ?_, hv,
    fun trace op dt p ps htr hdone herr hresp => ?_⟩
  · exact hl trace lyriaMaxWaitTime 0 0 op dt p ps htr hdone herr hresp (by decide)
  · exact hv trace veoMaxWaitTime 0 0 op dt p ps htr hdone herr hresp (by decide)

/-- Witness for C3 at concrete runs whose first status response is `done`
with one prediction. -/
theorem c3_witness :
    LyriaService.pollMusicGeneration lyriaOnePredTrace =
      (LyriaService.processMusicResult (some lyriaSamplePred), 1) ∧
    VeoService.pollVideoGeneration veoOnePredTrace =
      (VeoService.processVideoResult (some veoSamplePred), 1) := by
  constructor
  · exact c3_done_nonempty_payload_returns.2.1 lyriaOnePredTrace _ 0 lyriaSamplePred []
      rfl rfl rfl rfl
  · exact c3_done_nonempty_payload_returns.2.2.2 veoOnePredTrace _ 0 veoSamplePred []
      rfl rfl rfl rfl

/-- C4: a failed status request does not terminate the poller while the
elapsed time (read after the failure) is still below the maximum wait:
the failure is swallowed and the loop retries one poll interval later,
having issued exactly one more status request; only when the elapsed time
has reached or exceeded the maximum wait does such a failure produce the
timeout error. -/
theorem c4_transient_failure_swallowed_until_deadline :
    (∀ (trace : Nat → PollEvent LyriaPrediction) (fuel i e dt : Nat) (msg : String),
       trace i = .fail msg dt → e < lyriaMaxWaitTime →
       (e + dt < lyriaMaxWaitTime →
          lyriaPoll trace (fuel+1) i e =
            ((lyriaPoll trace fuel (i+1) (e + dt + lyriaPollInterval)).1,
             (lyriaPoll trace fuel (i+1) (e + dt + lyriaPollInterval)).2 + 1)) ∧
       (lyriaMaxWaitTime ≤ e + dt →
          lyriaPoll trace (fuel+1) i e = (.error "Music generation timeout", 1)))
  ∧ (∀ (trace : Nat → PollEvent VeoPrediction) (fuel i e dt : Nat) (msg : String),
       trace i = .fail msg dt → e < veoMaxWaitTime →
       (e + dt < veoMaxWaitTime →
          veoPoll trace (fuel+1) i e =
            ((veoPoll trace fuel (i+1) (e + dt + veoPollInterval)).1,
             (veoPoll trace fuel (i+1) (e + dt + veoPollInterval)).2 + 1)) ∧
       (veoMaxWaitTime ≤ e + dt →
          veoPoll trace (fuel+1) i e = (.error "Video generation timeout", 1))) := by
  constructor
  · intro trace fuel i e dt msg htr hge
    exact pollLoop_fail_step lyriaMaxWaitTime lyriaPollInterval _ _
      LyriaService.processMusicResult trace fuel i e dt msg htr hge
  · intro trace fuel i e dt msg htr hge
    exact pollLoop_fail_step veoMaxWaitTime veoPollInterval _ _
      VeoService.processVideoResult trace fuel i e dt msg htr hge

/-- Witness for C4 at concrete runs: a first request that fails after
consuming the whole wait budget yields the timeout error immediately, and
a first request that fails instantly is retried. -/
theorem c4_witness :
    LyriaService.pollMusicGeneration lyriaSlowFailTrace =
      (.error "Music generation timeout", 1) ∧
    VeoService.pollVideoGeneration veoSlowFailTrace =
      (.error "Video generation timeout", 1) ∧
    LyriaService.pollMusicGeneration lyriaAllFailTrace =
      ((lyriaPoll lyriaAllFailTrace lyriaMaxWaitTime 1 lyriaPollInterval).1,
       (lyriaPoll lyriaAllFailTrace lyriaMaxWaitTime 1 lyriaPollInterval).2 + 1) := by
  refine ⟨?_, ?_, ?_⟩
  · exact (c4_transient_failure_swallowed_until_deadline.1 lyriaSlowFailTrace
      lyriaMaxWaitTime 0 0 lyriaMaxWaitTime "read ECONNRESET" rfl (by decide)).2 (by decide)
  · exact (c4_transient_failure_swallowed_until_deadline.2 veoSlowFailTrace
      veoMaxWaitTime 0 0 veoMaxWaitTime "read ECONNRESET" rfl (by decide)).2 (by decide)
  · have h := (c4_transient_failure_swallowed_until_deadline.1 lyriaAllFailTrace
      lyriaMaxWaitTime 0 0 0 "read ECONNRESET" rfl (by decide)).1 (by decide)
    simpa using h

/-- Every image the Imagen saving loop collects carries an `fs.stat` size. -/
theorem imagenCollect_sizes (statSize : Nat → Int) (hsz : ∀ n, 0 ≤ statSize n) :
    ∀ (preds : List ImagenPrediction) (k : Nat),
      ∀ img ∈ imagenCollect statSize k preds, 0 ≤ img.size := by
  intro preds
  induction preds with
  | nil => intro k img hmem; simp [imagenCollect] at hmem
  | cons p rest ih =>
    intro k img hmem
    unfold imagenCollect at hmem
    cases hb : p.bytesBase64Encoded with
    | some s =>
      rw [hb] at hmem
      rcases List.mem_cons.mp hmem with h1 | h2
      · subst h1; exact hsz k
      · exact ih (k+1) img h2
    | none =>
      rw [hb] at hmem
      exact ih k img hmem

/-- C6, corrected: every response a service's `processRequest` returns (as
opposed to throws) has `success` true, and every artifact in its output
list has a non-negative size whenever the file system reports
non-negative sizes for the written files — but the artifact list itself
may be empty (see the counterexample), so only the size half of the
claimed invariant holds. -/
theorem c6_success_artifacts_nonnegative_sizes :
    (∀ (req : ImagenRequest) (env : ImagenEnv) (r : ImagenResponse),
       (∀ n, 0 ≤ env.statSize n) →
       ImagenService.processRequest req env = .ok r →
       r.success = true ∧ ∀ img ∈ r.images, 0 ≤ img.size)
  ∧ (∀ (req : ChirpRequest) (env : ChirpEnv) (r : ChirpResponse),
       0 ≤ env.statSize →
       ChirpService.processRequest req env = .ok r →
       r.success = true ∧ ∀ a ∈ r.audio, 0 ≤ a.size)
  ∧ (∀ (p : LyriaPrediction) (r : LyriaResponse),
       0 ≤ p.savedSize →
       LyriaService.processMusicResult (some p) = .ok r →
       r.success = true ∧ ∀ m ∈ r.music, 0 ≤ m.size) := by
  refine ⟨?_, ?_, ?_⟩
  · intro req env r hsz hok
    unfold ImagenService.processRequest at hok
    split at hok
    case h_1 r' heq =>
      injection hok with hok'
      subst hok'
      unfold ImagenService.processBody at heq
      split at heq
      · exact absurd heq (by simp)
      · split at heq
        · exact absurd heq (by simp)
        case h_2 data hdata =>
          injection heq with heq'
          subst heq'
          exact ⟨rfl, imagenCollect_sizes env.statSize hsz (data.predictions.getD []) 0⟩
    case h_2 => exact absurd hok (by simp)
  · intro req env r hsz hok
    unfold ChirpService.processRequest at hok
    split at hok
    case h_1 r' heq =>
      injection hok with hok'
      subst hok'
      unfold ChirpService.processBody at heq
      split at heq
      · exact absurd heq (by simp)
      · split at heq
        · exact absurd heq (by simp)
        case h_2 data hdata =>
          injection heq with heq'
          subst heq'
          refine ⟨rfl, ?_⟩
          intro a hmem
          cases hc : data.audioContent with
          | some s => simp [hc] at hmem; subst hmem; exact hsz
          | none => simp [hc] at hmem
    case h_2 => exact absurd hok (by simp)
  · intro p r hsz hok
    unfold LyriaService.processMusicResult at hok
    injection hok with hok'
    subst hok'
    refine ⟨rfl, ?_⟩
    intro m hmem
    cases hb : p.bytesBase64Encoded with
    | some s => simp [hb] at hmem; subst hmem; exact hsz
    | none =>
      cases ha : p.audioUri with
      | some s => simp [hb, ha] at hmem; subst hmem; exact hsz
      | none => simp [hb, ha] at hmem

/-- C6, counterexample: the claim asserts that a successful response has a
non-empty artifact list.  A valid Imagen request against an API response
carrying no `predictions` field yields a returned (not thrown) response
with `success: true` and an empty `images` list. -/
theorem c6_counterexample_success_with_no_artifacts :
    ImagenService.processRequest imagenCatRequest imagenNoPredsEnv =
      .ok { success := true, images := [], request := imagenCatRequest } :=
  rfl

/-- Witness for C6 at concrete inputs: one saved Imagen image of 42 bytes,
one Chirp audio file of 23 bytes, one Lyria music file of 7 bytes. -/
theorem c6_witness :
    ((ImagenService.processRequest imagenCatRequest imagenOneImageEnv =
        .ok { success := true, images := [{ size := 42 }], request := imagenCatRequest }) ∧
      ∀ img ∈ [({ size := 42 } : ImageFile)], 0 ≤ img.size) ∧
    ((ChirpService.processRequest chirpHelloRequest chirpAudioEnv =
        .ok { success := true, audio := [{ size := 23 }], request := chirpHelloRequest }) ∧
      ∀ a ∈ [({ size := 23 } : AudioFile)], 0 ≤ a.size) ∧
    ((LyriaService.processMusicResult (some lyriaSamplePred) =
        .ok { success := true, music := [{ size := 7 }] }) ∧
      ∀ m ∈ [({ size := 7 } : MusicFile)], 0 ≤ m.size) := by
  refine ⟨⟨rfl, ?_⟩, ⟨rfl, ?_⟩, ⟨rfl, ?_⟩⟩
  · have h := (c6_success_artifacts_nonnegative_sizes.1 imagenCatRequest imagenOneImageEnv
      { success := true, images := [{ size := 42 }], request := imagenCatRequest }
      (fun n => by norm_num [imagenOneImageEnv]) rfl).2
    exact h
  · have h := (c6_success_artifacts_nonnegative_sizes.2.1 chirpHelloRequest chirpAudioEnv
      { success := true, audio := [{ size := 23 }], request := chirpHelloRequest }
      (by norm_num [chirpAudioEnv]) rfl).2
    exact h
  · have h := (c6_success_artifacts_nonnegative_sizes.2.2 lyriaSamplePred
      { success := true, music := [{ size := 7 }] }
      (by norm_num [lyriaSamplePred]) rfl).2
    exact h

/-- C7, corrected: every error raised inside `processRequest` reaches the
caller as the generic operation-failed error built by `handleError`, whose
form depends only on the three-way classification — but in the
has-HTTP-response case the message carried is the response's own error
message (or its status text) and status code, not the original error
object's `message` (see the counterexample); the original message is
carried in the network-level and other cases. -/
theorem c7_errors_wrapped_by_classification :
    (∀ (req : ImagenRequest) (env : ImagenEnv) (e : JsError),
       ImagenService.processBody req env = .error e →
       ImagenService.processRequest req env =
         .error (BaseGoogleAIService.handleError e "Imagen image generation"))
  ∧ (∀ op m : String,
       BaseGoogleAIService.handleError (.plain m) op = op ++ " failed: " ++ m)
  ∧ (∀ op m : String,
       BaseGoogleAIService.handleError (.axiosRequest m) op =
         op ++ " failed: Network error - " ++ m)
  ∧ (∀ (op st : String) (s : Nat) (d : Option String) (m : String),
       BaseGoogleAIService.handleError (.axiosResponse s d st m) op =
         op ++ " failed: " ++ jsOr d st ++ " (Status: " ++ toString s ++ ")") := by
  refine ⟨?_, fun op m => rfl, fun op m => rfl, fun op st s d m => rfl⟩
  intro req env e h
  unfold ImagenService.processRequest
  rw [h]

/-- C7, counterexample: for an error carrying an HTTP response, the
propagated message is built from the response body's error message and
the status code; the original error's own message (here axios's
`Request failed with status code 500`) does not occur in it, so the
propagated error does not carry the original error's message. -/
theorem c7_counterexample_original_message_dropped :
    ImagenService.processRequest imagenCatRequest imagenHttp500Env =
      .error "Imagen image generation failed: backend unavailable (Status: 500)" ∧
    subOf ("Request failed with status code 500".data)
      ("Imagen image generation failed: backend unavailable (Status: 500)".data) = false := by
  exact ⟨rfl, by decide⟩

/-- Witness for C7 at a concrete failing call. -/
theorem c7_witness :
    ImagenService.processRequest imagenCatRequest imagenHttp500Env =
      .error (BaseGoogleAIService.handleError
        (.axiosResponse 500 (some "backend unavailable") "Internal Server Error"
          "Request failed with status code 500") "Imagen image generation") :=
  c7_errors_wrapped_by_classification.1 imagenCatRequest imagenHttp500Env _ rfl

/-- A merge that returns does so with a successful response for its own
request. -/
theorem mergeFiles_ok (env : AVEnv) (req : AVToolRequest) (r : AVToolResponse)
    (h : AVToolService.mergeFiles env req = .ok r) :
    r.success = true ∧ r.error = none ∧ r.request = req := by
  unfold AVToolService.mergeFiles at h
  split at h
  · exact absurd h (by simp)
  · dsimp only at h
    split at h
    · exact absurd h (by simp)
    · injection h with h'
      subst h'
      exact ⟨rfl, rfl, rfl⟩

/-- A per-file-loop handler that returns does so with a successful
response for its own request. -/
theorem loopHandler_ok (_env : AVEnv) (req : AVToolRequest) (r : AVToolResponse)
    (files : Except JsError (List AVOutputFile))
    (h : (match files with
          | .error e => (.error e : Except JsError AVToolResponse)
          | .ok fs =>
            .ok { success := true, error := none, outputFiles := fs, request := req }) = .ok r) :
    r.success = true ∧ r.error = none ∧ r.request = req := by
  split at h
  · exact absurd h (by simp)
  · injection h with h'
    subst h'
    exact ⟨rfl, rfl, rfl⟩

/-- `addSubtitles` behaves likewise. -/
theorem addSubtitles_ok (env : AVEnv) (req : AVToolRequest) (r : AVToolResponse)
    (h : AVToolService.addSubtitles env req = .ok r) :
    r.success = true ∧ r.error = none ∧ r.request = req := by
  unfold AVToolService.addSubtitles at h
  split at h
  · exact absurd h (by simp)
  · split at h
    · exact absurd h (by simp)
    · dsimp only at h
      split at h
      · exact absurd h (by simp)
      · injection h with h'
        subst h'
        exact ⟨rfl, rfl, rfl⟩

/-- Every response `AVToolService.processRequest` returns (rather than
throws) is a successful response for the request it was given. -/
theorem AVTool_processRequest_ok (env : AVEnv) (req : AVToolRequest) (r : AVToolResponse)
    (h : AVToolService.processRequest env req = .ok r) :
    r.success = true ∧ r.error = none ∧ r.request = req := by
  unfold AVToolService.processRequest at h
  split at h
  case h_1 r' heq =>
    injection h with h'
    subst h'
    unfold AVToolService.processBody at heq
    split at heq
    · exact absurd heq (by simp)
    · split at heq
      · exact mergeFiles_ok env req r' heq
      · split at heq
        · exact loopHandler_ok env req r' (execStatLoop env 0 req.inputFiles)
            (by simpa [AVToolService.extractAudio] using heq)
        · split at heq
          · exact addSubtitles_ok env req r' heq
          · split at heq
            · exact loopHandler_ok env req r' (execStatLoop env 0 req.inputFiles)
                (by simpa [AVToolService.trimMedia] using heq)
            · split at heq
              · exact loopHandler_ok env req r' (execStatLoop env 0 req.inputFiles)
                  (by simpa [AVToolService.resizeVideo] using heq)
              · split at heq
                · exact loopHandler_ok env req r' (execStatLoop env 0 req.inputFiles)
                    (by simpa [AVToolService.convertFormat] using heq)
                · exact absurd heq (by simp)
  case h_2 => exact absurd h (by simp)

/-- The batch loop processes each operation independently: its output is
the per-operation outcome list, regardless of earlier failures. -/
theorem batchGo_eq_map (envs : Nat → AVEnv) :
    ∀ (k : Nat) (ops : List AVToolRequest),
      AVToolService.batchGo envs k ops =
        (List.enumFrom k ops).map (fun pr =>
          match AVToolService.processRequest (envs pr.1) pr.2 with
          | .ok result => result
          | .error m => batchFailureRecord pr.2 m) := by
  intro k ops
  induction ops generalizing k with
  | nil => rfl
  | cons op rest ih => simp [AVToolService.batchGo, List.enumFrom, ih]

/-- C5: `batchProcess` attempts every operation in the list even when
earlier ones fail — the result list is exactly the independent
per-operation outcome list, where a failing operation contributes a
`success: false` record carrying its thrown error message and a
succeeding one contributes its response — and the success count reported
at the end equals the number of returned results whose `success` field is
true, which in turn is the number of operations whose `processRequest`
succeeded. -/
theorem c5_batch_continues_and_counts (envs : Nat → AVEnv)
    (operations : List AVToolRequest) :
    (AVToolService.batchProcess envs operations).1 =
      operations.enum.map (fun pr =>
        match AVToolService.processRequest (envs pr.1) pr.2 with
        | .ok result => result
        | .error m => { success := false, error := some m, outputFiles := [], request := pr.2 })
  ∧ (AVToolService.batchProcess envs operations).2 =
      ((AVToolService.batchProcess envs operations).1.filter (fun r => r.success)).length
  ∧ (AVToolService.batchProcess envs operations).2 =
      (operations.enum.filter (fun pr =>
        isOkE (AVToolService.processRequest (envs pr.1) pr.2))).length := by
  refine ⟨?_, rfl, ?_⟩
  · simpa [batchFailureRecord, List.enum] using batchGo_eq_map envs 0 operations
  · show ((AVToolService.batchGo envs 0 operations).filter (fun r => r.success)).length = _
    rw [batchGo_eq_map envs 0 operations, ← List.countP_eq_length_filter,
      ← List.countP_eq_length_filter, List.countP_map]
    refine List.countP_congr ?_
    intro pr hmem
    cases hpr : AVToolService.processRequest (envs pr.1) pr.2 with
    | ok result =>
      have hs := (AVTool_processRequest_ok (envs pr.1) pr.2 result hpr).1
      simp [Function.comp, hpr, isOkE, hs]
    | error m => simp [Function.comp, hpr, isOkE, batchFailureRecord]

/-- C9: `batchProcess` returns exactly one result per input operation, in
order, and the i-th result's `request` field is the i-th operation. -/
theorem c9_batch_one_result_per_operation (envs : Nat → AVEnv)
    (operations : List AVToolRequest) :
    (AVToolService.batchProcess envs operations).1.length = operations.length ∧
    (AVToolService.batchProcess envs operations).1.map (fun r => r.request) = operations := by
  constructor
  · show (AVToolService.batchGo envs 0 operations).length = _
    rw [batchGo_eq_map envs 0 operations]
    simp
  · show (AVToolService.batchGo envs 0 operations).map (fun r => r.request) = _
    rw [batchGo_eq_map envs 0 operations, List.map_map]
    have h2 : ∀ pr ∈ List.enumFrom 0 operations,
        ((fun r => r.request) ∘ (fun pr =>
          match AVToolService.processRequest (envs pr.1) pr.2 with
          | .ok result => result
          | .error m => batchFailureRecord pr.2 m)) pr = Prod.snd pr := by
      intro pr hmem
      cases hpr : AVToolService.processRequest (envs pr.1) pr.2 with
      | ok result =>
        have hr := (AVTool_processRequest_ok (envs pr.1) pr.2 result hpr).2.2
        simp [Function.comp, hpr, hr]
      | error m => simp [Function.comp, hpr, batchFailureRecord]
    rw [List.map_congr_left h2, List.enumFrom_map_snd]

/-- C8: setting an optional numeric field to `0` (Imagen `width`,
`height`, `numImages`; Lyria `duration`; Veo `duration`) never triggers
that field's range check, even though `0` lies outside every documented
range, because the checks are guarded by JavaScript truthiness and `0` is
falsy — a request with the field set to `0` validates exactly like a
request without the field, and concrete all-zero requests validate
successfully. -/
theorem c8_zero_skips_range_checks :
    (∀ r : ImagenRequest,
       ImagenService.validateRequest { r with width := some 0 } =
       ImagenService.validateRequest { r with width := none })
  ∧ (∀ r : ImagenRequest,
       ImagenService.validateRequest { r with height := some 0 } =
       ImagenService.validateRequest { r with height := none })
  ∧ (∀ r : ImagenRequest,
       ImagenService.validateRequest { r with numImages := some 0 } =
       ImagenService.validateRequest { r with numImages := none })
  ∧ (∀ r : LyriaRequest,
       LyriaService.validateRequest { r with duration := some 0 } =
       LyriaService.validateRequest { r with duration := none })
  ∧ (∀ r : VeoRequest,
       VeoService.validateRequest { r with duration := some 0 } =
       VeoService.validateRequest { r with duration := none })
  ∧ ImagenService.validateRequest
      { prompt := "A cat", negativePrompt := none, width := some 0, height := some 0
        numImages := some 0, guidanceScale := none, seed := none, steps := none
        language := none } = .ok true
  ∧ LyriaService.validateRequest
      { prompt := "A song", duration := some 0, genre := none, mood := none
        tempo := none } = .ok true
  ∧ VeoService.validateRequest
      { prompt := "A clip", duration := some 0, resolution := none, fps := none } =
      .ok true := by
  refine ⟨fun r => ?_, fun r => ?_, fun r => ?_, fun r => ?_, fun r => ?_, rfl, rfl, rfl⟩
  · simp [ImagenService.validateRequest, numTruthy]
  · simp [ImagenService.validateRequest, numTruthy]
  · simp [ImagenService.validateRequest, numTruthy]
  · simp [LyriaService.validateRequest, numTruthy]
  · simp [VeoService.validateRequest, numTruthy]

/-! ## Text chunking lemmas -/

/-- A split always yields at least one piece. -/
theorem splitChars_ne_nil (p : Char → Bool) : ∀ l, splitChars p l ≠ [] := by
  intro l
  induction l with
  | nil => simp [splitChars]
  | cons c cs ih =>
    unfold splitChars
    by_cases hc : p c = true
    · simp [hc]
    · rw [if_neg hc]
      cases hsp : splitChars p cs with
      | nil => exact absurd hsp ih
      | cons piece rest => simp

/-- Splitting at a delimiter character ends the current piece. -/
theorem splitChars_cons_delim (p : Char → Bool) (c : Char) (l : List Char)
    (hc : p c = true) : splitChars p (c :: l) = [] :: splitChars p l := by
  conv_lhs => unfold splitChars
  rw [if_pos hc]

/-- Splitting below a non-delimiter character extends the first piece. -/
theorem splitChars_cons_nodelim (p : Char → Bool) (c : Char) (l : List Char)
    (hc : p c = false) :
    splitChars p (c :: l) = (c :: (splitChars p l).headI) :: (splitChars p l).tail := by
  conv_lhs => unfold splitChars
  rw [if_neg (by simp [hc])]
  cases hsp : splitChars p l with
  | nil => exact absurd hsp (splitChars_ne_nil p l)
  | cons piece rest => simp

/-- A delimiter-free prefix is absorbed into the first piece of the split. -/
theorem splitChars_append_nodelim (p : Char → Bool) :
    ∀ (a l : List Char), a.all (fun c => !p c) = true →
      splitChars p (a ++ l) =
        (a ++ (splitChars p l).headI) :: (splitChars p l).tail := by
  intro a
  induction a with
  | nil =>
    intro l _
    cases hsp : splitChars p l with
    | nil => exact absurd hsp (splitChars_ne_nil p l)
    | cons piece rest => simp [hsp]
  | cons c a' ih =>
    intro l ha
    rw [List.all_cons] at ha
    obtain ⟨hc, ha'⟩ := And.intro (Bool.and_elim_left ha) (Bool.and_elim_right ha)
    have hc' : p c = false := by simpa using hc
    rw [List.cons_append, splitChars_cons_nodelim p c (a' ++ l) hc', ih l ha']
    simp

/-- Every piece of a split is delimiter-free. -/
theorem splitChars_pieces_nodelim (p : Char → Bool) :
    ∀ (l : List Char), ∀ s ∈ splitChars p l, s.all (fun c => !p c) = true := by
  intro l
  induction l with
  | nil =>
    intro s hs
    simp [splitChars] at hs
    simp [hs]
  | cons c cs ih =>
    intro s hs
    by_cases hc : p c = true
    · rw [splitChars_cons_delim p c cs hc] at hs
      rcases List.mem_cons.mp hs with h | h
      · simp [h]
      · exact ih s h
    · have hc' : p c = false := by simpa using hc
      rw [splitChars_cons_nodelim p c cs hc'] at hs
      cases hsp : splitChars p cs with
      | nil => exact absurd hsp (splitChars_ne_nil p cs)
      | cons piece rest =>
        rw [hsp] at hs
        rcases List.mem_cons.mp hs with h | h
        · subst h
          have hp := ih piece (by rw [hsp]; simp)
          simp only [List.headI, List.all_cons]
          simp [hc', hp]
        · exact ih s (by rw [hsp]; exact List.mem_cons_of_mem piece (by simpa using h))

/-- The head of a `dropWhile` result does not satisfy the predicate. -/
theorem head_dropWhile_no {α : Type} (p : α → Bool) :
    ∀ (l : List α) (c : α), (l.dropWhile p).head? = some c → p c = false := by
  intro l
  induction l with
  | nil => intro c h; simp [List.dropWhile] at h
  | cons x xs ih =>
    intro c h
    rw [List.dropWhile_cons] at h
    by_cases hx : p x = true
    · rw [if_pos hx] at h; exact ih c h
    · rw [if_neg hx] at h
      simp at h
      subst h
      simpa using hx

/-- `dropWhile` is the identity when the head does not satisfy the
predicate. -/
theorem dropWhile_eq_self_of_head {α : Type} (p : α → Bool) (l : List α)
    (h : ∀ c, l.head? = some c → p c = false) : l.dropWhile p = l := by
  cases l with
  | nil => rfl
  | cons x xs => rw [List.dropWhile_cons, if_neg (by simp [h x rfl])]

/-- The first character of a trimmed string is not whitespace. -/
theorem trimChars_head_not_ws (l : List Char) (c : Char)
    (h : (trimChars l).head? = some c) : c.isWhitespace = false := by
  unfold trimChars at h
  rw [List.head?_reverse] at h
  obtain ⟨pre, hpre⟩ :=
    List.dropWhile_suffix (l := (l.dropWhile Char.isWhitespace).reverse) Char.isWhitespace
  have h2 : (l.dropWhile Char.isWhitespace).reverse.getLast? = some c := by
    rw [← hpre, List.getLast?_append, h]
    rfl
  rw [List.getLast?_reverse] at h2
  exact head_dropWhile_no Char.isWhitespace l c h2

/-- The last character of a trimmed string is not whitespace. -/
theorem trimChars_getLast_not_ws (l : List Char) (c : Char)
    (h : (trimChars l).getLast? = some c) : c.isWhitespace = false := by
  unfold trimChars at h
  rw [List.getLast?_reverse] at h
  exact head_dropWhile_no Char.isWhitespace _ c h

/-- Trimming is the identity on strings with no leading or trailing
whitespace. -/
theorem trimChars_eq_self (l : List Char)
    (hh : ∀ c, l.head? = some c → c.isWhitespace = false)
    (hl : ∀ c, l.getLast? = some c → c.isWhitespace = false) :
    trimChars l = l := by
  unfold trimChars
  rw [dropWhile_eq_self_of_head _ l hh]
  rw [dropWhile_eq_self_of_head _ l.reverse
    (fun c hc => hl c (by rwa [List.head?_reverse] at hc))]
  exact List.reverse_reverse l

/-- Trimming is idempotent. -/
theorem trimChars_idem (l : List Char) : trimChars (trimChars l) = trimChars l :=
  trimChars_eq_self _ (trimChars_head_not_ws l) (trimChars_getLast_not_ws l)

/-- A leading space disappears under trimming. -/
theorem trimChars_space_cons (t : List Char) : trimChars (' ' :: t) = trimChars t := by
  unfold trimChars
  rw [List.dropWhile_cons, if_pos (by decide)]

/-- Trimming preserves delimiter-freeness. -/
theorem noDelim_trimChars (l : List Char) (h : noDelim l = true) :
    noDelim (trimChars l) = true := by
  unfold noDelim at *
  unfold trimChars
  rw [List.all_reverse]
  rw [List.all_eq_true] at h ⊢
  intro x hx
  have hx1 := (List.dropWhile_sublist Char.isWhitespace).subset hx
  rw [List.mem_reverse] at hx1
  exact h x ((List.dropWhile_sublist Char.isWhitespace).subset hx1)

/-- A chunk is empty exactly when it was assembled from no sentences. -/
theorem joinChunk_isEmpty (cs : List (List Char)) :
    (joinChunk cs).isEmpty = cs.isEmpty := by
  cases cs with
  | nil => rfl
  | cons c rest => simp [joinChunk]

/-- Appending one more sentence to a chunk is exactly what the loop's
`currentChunk += (currentChunk ? ' ' : '') + sentenceWithPunctuation`
does. -/
theorem joinChunk_snoc (cs : List (List Char)) (t : List Char) :
    joinChunk (cs ++ [t]) =
      joinChunk cs ++ (if (joinChunk cs).isEmpty then [] else [' ']) ++ (t ++ ['.']) := by
  cases cs with
  | nil => simp [joinChunk]
  | cons c rest =>
    have he : (joinChunk (c :: rest)).isEmpty = false := by
      rw [joinChunk_isEmpty]; rfl
    rw [he]
    simp [joinChunk]

/-- Splitting the joined tail of a chunk recovers its sentences. -/
theorem sentencesOf_flatten_aux :
    ∀ (rest : List (List Char)), (∀ t ∈ rest, CleanSentence t) →
      ((splitChars isDelimChar ((rest.map (fun t => ' ' :: (t ++ ['.']))).flatten)).map
        trimChars).filter (fun s => !s.isEmpty) = rest := by
  intro rest
  induction rest with
  | nil => intro _; rfl
  | cons t rest' ih =>
    intro hall
    obtain ⟨htrim, hne, hnd⟩ := hall t (by simp)
    rw [List.map_cons, List.flatten_cons]
    have hsh : (' ' :: (t ++ ['.'])) ++ (rest'.map (fun t => ' ' :: (t ++ ['.']))).flatten
        = (' ' :: t) ++ ('.' :: (rest'.map (fun t => ' ' :: (t ++ ['.']))).flatten) := by
      simp
    rw [hsh]
    rw [splitChars_append_nodelim isDelimChar (' ' :: t) _ (by
      rw [List.all_cons]
      refine Bool.and_eq_true_iff.mpr ⟨by decide, ?_⟩
      unfold noDelim at hnd
      exact hnd)]
    rw [splitChars_cons_delim isDelimChar '.' _ (by decide)]
    simp only [List.headI, List.tail_cons, List.append_nil]
    rw [List.map_cons, List.filter_cons]
    rw [trimChars_space_cons, htrim]
    have hkeep : (!t.isEmpty) = true := by
      simpa [List.isEmpty_iff] using hne
    rw [hkeep]
    simp only [if_true]
    rw [ih (fun u hu => hall u (by simp [hu]))]

/-- Re-splitting an assembled chunk recovers exactly the sentences it was
assembled from. -/
theorem sentencesOf_joinChunk :
    ∀ (cs : List (List Char)), (∀ t ∈ cs, CleanSentence t) →
      sentencesOf (joinChunk cs) = cs := by
  intro cs hall
  cases cs with
  | nil => rfl
  | cons c rest =>
    obtain ⟨htrim, hne, hnd⟩ := hall c (by simp)
    show ((splitChars isDelimChar
        (c ++ ['.'] ++ (rest.map (fun t => ' ' :: (t ++ ['.']))).flatten)).map
      trimChars).filter (fun s => !s.isEmpty) = c :: rest
    have hsh : c ++ ['.'] ++ (rest.map (fun t => ' ' :: (t ++ ['.']))).flatten
        = c ++ ('.' :: (rest.map (fun t => ' ' :: (t ++ ['.']))).flatten) := by simp
    rw [hsh]
    rw [splitChars_append_nodelim isDelimChar c _ (by unfold noDelim at hnd; exact hnd)]
    rw [splitChars_cons_delim isDelimChar '.' _ (by decide)]
    simp only [List.headI, List.tail_cons, List.append_nil]
    rw [List.map_cons, List.filter_cons, htrim]
    have hkeep : (!c.isEmpty) = true := by
      simpa [List.isEmpty_iff] using hne
    rw [hkeep]
    simp only [if_true]
    rw [sentencesOf_flatten_aux rest (fun u hu => hall u (by simp [hu]))]

/-- Every chunk the loop emits is non-empty: chunks are only pushed after
a truthiness check, and `currentChunk` is only (re)started from a
non-blank sentence. -/
theorem chunksGo_ne_nil (maxCS : Nat) :
    ∀ (sentences : List (List Char)) (current c : List Char),
      c ∈ chunksGo maxCS sentences current → c ≠ [] := by
  intro sentences
  induction sentences with
  | nil =>
    intro current c hc
    simp only [chunksGo] at hc
    by_cases he : current.isEmpty = true
    · rw [if_pos he] at hc; simp at hc
    · rw [if_neg he] at hc
      simp at hc
      subst hc
      simpa [List.isEmpty_iff] using he
  | cons s rest ih =>
    intro current c hc
    simp only [chunksGo] at hc
    by_cases ht : (trimChars s).isEmpty = true
    · rw [if_pos ht] at hc; exact ih current c hc
    · rw [if_neg ht] at hc
      by_cases hfit : current.length +
          (trimChars s ++ (if s.any isDelimChar = true then [] else ['.'])).length ≤ maxCS
      · rw [if_pos hfit] at hc
        exact ih _ c hc
      · rw [if_neg hfit] at hc
        rcases List.mem_append.mp hc with h | h
        · by_cases he : current.isEmpty = true
          · rw [if_pos he] at h; simp at h
          · rw [if_neg he] at h
            simp at h
            subst h
            simpa [List.isEmpty_iff] using he
        · exact ih _ c h

/-- The chunking loop, started on delimiter-free sentence pieces with a
current chunk assembled from clean sentences, emits chunks whose
sentences concatenate to the pending clean sentences followed by the
non-blank trimmed remaining pieces, in order. -/
theorem chunksGo_spec (maxCS : Nat) :
    ∀ (sentences cs : List (List Char)),
      (∀ s ∈ sentences, noDelim s = true) →
      (∀ t ∈ cs, CleanSentence t) →
      ((chunksGo maxCS sentences (joinChunk cs)).map sentencesOf).flatten =
        cs ++ (sentences.map trimChars).filter (fun t => !t.isEmpty) := by
  intro sentences
  induction sentences with
  | nil =>
    intro cs _ hcs
    simp only [chunksGo]
    by_cases he : (joinChunk cs).isEmpty = true
    · have hcs0 : cs = [] := by
        rw [joinChunk_isEmpty] at he
        exact List.isEmpty_iff.mp he
      rw [if_pos he]
      simp [hcs0]
    · rw [if_neg he]
      simp only [List.map_cons, List.map_nil, List.flatten_cons, List.flatten_nil,
        List.append_nil]
      rw [sentencesOf_joinChunk cs hcs]
      simp
  | cons s rest ih =>
    intro cs hnd hcs
    have hnds : noDelim s = true := hnd s (by simp)
    have hndrest : ∀ u ∈ rest, noDelim u = true := fun u hu => hnd u (by simp [hu])
    simp only [chunksGo]
    by_cases ht : (trimChars s).isEmpty = true
    · rw [if_pos ht]
      rw [ih cs hndrest hcs]
      simp [List.filter_cons, ht]
    · rw [if_neg ht]
      have hany : s.any isDelimChar = false := by
        by_contra hA
        rw [Bool.not_eq_false, List.any_eq_true] at hA
        obtain ⟨x, hx, hpx⟩ := hA
        have hax := List.all_eq_true.mp hnds x hx
        simp [hpx] at hax
      have hswp : (trimChars s ++ (if s.any isDelimChar = true then [] else ['.']))
          = trimChars s ++ ['.'] := by
        rw [hany]
        simp
      rw [hswp]
      have htne : trimChars s ≠ [] := by
        intro h
        exact ht (by simp [h])
      have hclean : CleanSentence (trimChars s) :=
        ⟨trimChars_idem s, htne, noDelim_trimChars s hnds⟩
      have hkeep : (!(trimChars s).isEmpty) = true := by
        simpa using ht
      by_cases hfit : (joinChunk cs).length + (trimChars s ++ ['.']).length ≤ maxCS
      · rw [if_pos hfit]
        rw [← joinChunk_snoc cs (trimChars s)]
        rw [ih (cs ++ [trimChars s]) hndrest (fun u hu => by
          rcases List.mem_append.mp hu with h | h
          · exact hcs u h
          · simp at h
            subst h
            exact hclean)]
        rw [List.map_cons, List.filter_cons, hkeep]
        simp
      · rw [if_neg hfit]
        rw [List.map_append, List.flatten_append]
        have ht2 : trimChars s ++ ['.'] = joinChunk [trimChars s] := by simp [joinChunk]
        rw [ht2, ih [trimChars s] hndrest (fun u hu => by
          simp at hu
          subst hu
          exact hclean)]
        rw [List.map_cons, List.filter_cons, hkeep]
        by_cases he : (joinChunk cs).isEmpty = true
        · have hcs0 : cs = [] := by
            rw [joinChunk_isEmpty] at he
            exact List.isEmpty_iff.mp he
          rw [if_pos he]
          simp [hcs0]
        · rw [if_neg he]
          simp only [List.map_cons, List.map_nil, List.flatten_cons, List.flatten_nil,
            List.append_nil]
          rw [sentencesOf_joinChunk cs hcs]
          simp

/-- C10: for every input text and positive maximum chunk size,
`splitTextIntoChunks` returns only non-empty chunks, and re-splitting the
chunks into sentences recovers exactly the non-blank sentences of the
input (as delimited by `. ! ?` and their full-width forms), each
appearing in exactly one chunk, in their original order. -/
theorem c10_chunks_partition_sentences (text : List Char) (maxChunkSize : Nat)
    (_hpos : 0 < maxChunkSize) :
    (∀ c ∈ ChirpService.splitTextIntoChunks text maxChunkSize, c ≠ []) ∧
    ((ChirpService.splitTextIntoChunks text maxChunkSize).map sentencesOf).flatten =
      sentencesOf text := by
  constructor
  · intro c hc
    exact chunksGo_ne_nil maxChunkSize (splitChars isDelimChar text) [] c hc
  · show ((chunksGo maxChunkSize (splitChars isDelimChar text) []).map sentencesOf).flatten = _
    have h := chunksGo_spec maxChunkSize (splitChars isDelimChar text) []
      (fun s hs => by
        unfold noDelim
        exact splitChars_pieces_nodelim isDelimChar text s hs)
      (fun t ht => absurd ht (List.not_mem_nil t))
    simpa [sentencesOf, joinChunk] using h

/-- Witness for C10 at a concrete text and chunk size. -/
theorem c10_witness :
    0 < 12 ∧
    ((∀ c ∈ ChirpService.splitTextIntoChunks ("Hi there. All good? Yes!".data) 12, c ≠ []) ∧
     ((ChirpService.splitTextIntoChunks ("Hi there. All good? Yes!".data) 12).map
        sentencesOf).flatten = sentencesOf ("Hi there. All good? Yes!".data)) :=
  ⟨by decide, c10_chunks_partition_sentences ("Hi there. All good? Yes!".data) 12 (by decide)⟩
